import Mathlib

/-!
Verification of the AAS validation-service core
(`packages/validation-service/src/validators/aas_validator.py` together with
its models, routes and health probe) against its natural-language
specification.

The Python code operates on decoded JSON documents and on loosely typed
issue structures coming from the external `aas-test-engines` checker.  We
embed both as one inductive type `PyVal` of Python values (`None`, bools,
ints, strings, lists, dicts with string keys).  Operations that can raise a
Python exception are embedded as `Except String` computations whose error
carries the exception message; mutable diagnostic lists are threaded
explicitly through the walkers together with an `Option String` recording
an escaped exception, so that the partial appends made before an exception
are preserved exactly as Python's mutable lists preserve them.
-/

namespace AasEditor

/-- A Python value as produced by `json.loads` or handed over by the
external checker.  Dict keys are strings (JSON object keys); floats are not
needed by any claim and are omitted. -/
inductive PyVal where
  | none
  | bool (b : Bool)
  | int (n : Int)
  | str (s : String)
  | list (items : List PyVal)
  | dict (entries : List (String × PyVal))

mutual

/-- Structural boolean equality on `PyVal` (Python `==` restricted to JSON
scalars and containers). -/
def pyBEq : PyVal → PyVal → Bool
  | .none, .none => true
  | .bool a, .bool b => a == b
  | .int a, .int b => a == b
  | .str a, .str b => a == b
  | .list a, .list b => pyBEqList a b
  | .dict a, .dict b => pyBEqEntries a b
  | _, _ => false

def pyBEqList : List PyVal → List PyVal → Bool
  | [], [] => true
  | a :: as_, b :: bs => pyBEq a b && pyBEqList as_ bs
  | _, _ => false

def pyBEqEntries : List (String × PyVal) → List (String × PyVal) → Bool
  | [], [] => true
  | (ka, va) :: as_, (kb, vb) :: bs => ka == kb && pyBEq va vb && pyBEqEntries as_ bs
  | _, _ => false

end

mutual

theorem pyBEq_iff : (a b : PyVal) → (pyBEq a b = true ↔ a = b)
  | .none, b => by cases b <;> simp [pyBEq]
  | .bool x, b => by cases b <;> simp [pyBEq]
  | .int x, b => by cases b <;> simp [pyBEq]
  | .str x, b => by cases b <;> simp [pyBEq]
  | .list xs, b => by
      cases b <;> simp [pyBEq]
      exact pyBEqList_iff xs _
  | .dict xs, b => by
      cases b <;> simp [pyBEq]
      exact pyBEqEntries_iff xs _

theorem pyBEqList_iff : (a b : List PyVal) → (pyBEqList a b = true ↔ a = b)
  | [], b => by cases b <;> simp [pyBEqList]
  | x :: xs, b => by
      cases b with
      | nil => simp [pyBEqList]
      | cons hd tl =>
        have h1 := pyBEq_iff x hd
        have h2 := pyBEqList_iff xs tl
        simp only [pyBEqList, Bool.and_eq_true, List.cons.injEq, h1, h2]

theorem pyBEqEntries_iff : (a b : List (String × PyVal)) → (pyBEqEntries a b = true ↔ a = b)
  | [], b => by cases b <;> simp [pyBEqEntries]
  | (k, v) :: xs, b => by
      cases b with
      | nil => simp [pyBEqEntries]
      | cons hd tl =>
        obtain ⟨kb, vb⟩ := hd
        have h1 := pyBEq_iff v vb
        have h2 := pyBEqEntries_iff xs tl
        simp only [pyBEqEntries, Bool.and_eq_true, beq_iff_eq, List.cons.injEq,
          Prod.mk.injEq, h1, h2]

end

instance : DecidableEq PyVal := fun a b => decidable_of_iff (pyBEq a b = true) (pyBEq_iff a b)

/-- Python truthiness (`bool(v)`): `None`/`False`/`0`/empty containers are
falsy, everything else truthy. -/
def pyTruthy : PyVal → Bool
  | .none => false
  | .bool b => b
  | .int n => n != 0
  | .str s => s ≠ ""
  | .list l => !l.isEmpty
  | .dict d => !d.isEmpty

/-- First-match association lookup in a dict's entry list (JSON objects are
assumed to have distinct keys, so first-match equals Python's lookup). -/
def dictLookup : List (String × PyVal) → String → Option PyVal
  | [], _ => Option.none
  | (k, v) :: rest, key => if k = key then some v else dictLookup rest key

mutual

/-- Python `repr` on embedded values (best-effort textual rendering; no
claim inspects these strings, they only feed default diagnostic messages). -/
def pyRepr : PyVal → String
  | .none => "None"
  | .bool true => "True"
  | .bool false => "False"
  | .int n => toString n
  | .str s => "\"" ++ s ++ "\""
  | .list l => "[" ++ String.intercalate ", " (pyReprList l) ++ "]"
  | .dict d => "\x7b" ++ String.intercalate ", " (pyReprEntries d) ++ "\x7d"

def pyReprList : List PyVal → List String
  | [] => []
  | v :: vs => pyRepr v :: pyReprList vs

def pyReprEntries : List (String × PyVal) → List String
  | [] => []
  | (k, v) :: rest => ("\"" ++ k ++ "\": " ++ pyRepr v) :: pyReprEntries rest

end

/-- Python `str` on embedded values (as used by f-string interpolation and
by `str(issue)` fallbacks). -/
def pyStr : PyVal → String
  | .str s => s
  | v => pyRepr v

/-- Embedding of `x.get(key, default)`: succeeds on dicts, raises
`AttributeError` on every other value (Python lists, strings, scalars have
no `get` method). -/
def pyGetD (v : PyVal) (key : String) (default : PyVal) : Except String PyVal :=
  match v with
  | .dict entries => .ok ((dictLookup entries key).getD default)
  | _ => .error "AttributeError: object has no attribute get"

/-- Embedding of iterating a Python value (`for x in v` / `enumerate(v)`):
lists yield their items, strings yield their characters, dicts yield their
keys; scalars raise `TypeError`. -/
def pyIterList : PyVal → Except String (List PyVal)
  | .list items => .ok items
  | .str s => .ok (s.toList.map fun c => .str (String.mk [c]))
  | .dict entries => .ok (entries.map fun kv => .str kv.1)
  | _ => .error "TypeError: object is not iterable"

/-- Embedding of `key in v` for a string literal `key`: key membership on
dicts, element membership on lists, substring test on strings, `TypeError`
on scalars. -/
def pyContainsStr (v : PyVal) (key : String) : Except String Bool :=
  match v with
  | .dict entries => .ok (entries.any fun kv => kv.1 = key)
  | .list items => .ok (items.any fun x => x == .str key)
  | .str s => .ok ((s.splitOn key).length > 1)
  | _ => .error "TypeError: argument of type is not a container"

/-- Embedding of `v[key]` for a string literal `key`: dict lookup (KeyError
when absent), `TypeError` on every other value. -/
def pyIndexStr (v : PyVal) (key : String) : Except String PyVal :=
  match v with
  | .dict entries =>
    match dictLookup entries key with
    | some x => .ok x
    | Option.none => .error "KeyError"
  | _ => .error "TypeError: value is not subscriptable"

/-- Python hashability: dicts and lists are unhashable, everything else in
our value universe is hashable. -/
def pyHashable : PyVal → Bool
  | .dict _ => false
  | .list _ => false
  | _ => true

/-- Structural membership of a value in a collected id list (Python `==`
on JSON scalars coincides with structural equality). -/
def pyMem (x : PyVal) (ids : List PyVal) : Bool :=
  ids.any fun y => y == x

/-- Embedding of `x in valid_ids` / `x not in valid_ids` on the id set:
Python hashes `x` first, so an unhashable value raises `TypeError`. -/
def pySetContains (x : PyVal) (ids : List PyVal) : Except String Bool :=
  if pyHashable x then .ok (pyMem x ids) else .error "TypeError: unhashable type"

/-- Embedding of `valid_ids.add(x)`: raises on unhashable values, otherwise
records the value (duplicates are harmless, membership is all that is ever
queried). -/
def pySetAdd (x : PyVal) (ids : List PyVal) : Except String (List PyVal) :=
  if pyHashable x then .ok (ids ++ [x]) else .error "TypeError: unhashable type"

/-! ## Diagnostic model (`models.py`)

`ValidationError` is a plain record of path, message, severity and optional
rule; `ValidationResult` carries the three severity buckets, the `valid`
flag, the suite label and the wall-clock duration.  The duration is a
measured quantity, so the embedding takes it as a parameter. -/

structure ValidationError where
  path : String
  message : String
  severity : String
  rule : Option String
  deriving DecidableEq, Repr

structure ValidationResult where
  valid : Bool
  errors : List ValidationError
  warnings : List ValidationError
  info : List ValidationError
  test_suite : String
  duration_ms : Float

/-- The three mutable diagnostic lists threaded through the validator. -/
structure Buckets where
  errors : List ValidationError
  warnings : List ValidationError
  info : List ValidationError
  deriving DecidableEq, Repr

def emptyBuckets : Buckets := ⟨[], [], []⟩

/-! ## Reference resolver (`AasValidator._extract_reference_id`) -/

/-- `AasValidator._extract_reference_id` (aas_validator.py lines 362-376).
Returns `PyVal.none` for Python `None`; total, mirroring the source, which
can raise on no input. -/
def extract_reference_id (reference : PyVal) : PyVal :=
  -- `if not reference: return None`
  if pyTruthy reference = false then .none
  else
    match reference with
    | .dict entries =>
      -- `keys = reference.get("keys", [])`
      let keys := (dictLookup entries "keys").getD (.list [])
      -- `if keys and isinstance(keys, list) and len(keys) > 0:`
      if pyTruthy keys then
        match keys with
        | .list ks =>
          if ks.length > 0 then
            -- `last_key = keys[-1]`
            match ks.getLast? with
            | some (.dict lk) =>
              -- `return last_key.get("value")`
              (dictLookup lk "value").getD .none
            | _ => .none
          else .none
        | _ => .none
      else .none
    | _ => .none

/-- The resolver algorithm as the specification words it: a mapping whose
`keys` field is a non-empty sequence whose last element is a mapping yields
that element's `value` field (absent when the field is missing); every
other input yields absent. -/
def extractTargetIdSpec (reference : PyVal) : PyVal :=
  match reference with
  | .dict entries =>
    match dictLookup entries "keys" with
    | some (.list ks) =>
      match ks.getLast? with
      | some (.dict lk) => (dictLookup lk "value").getD .none
      | _ => .none
    | _ => .none
  | _ => .none

example : extract_reference_id (.dict [("keys", .list [.dict [("type", .str "Submodel"), ("value", .str "urn:x")]])]) = .str "urn:x" := by rfl

example : extract_reference_id (.dict [("keys", .list [.str "odd", .dict [("value", .int 7)]])]) = .int 7 := by rfl

example : extract_reference_id (.str "urn:x") = .none := by rfl

example : extract_reference_id (.dict [("keys", .str "notalist")]) = .none := by rfl

example : extract_reference_id (.dict [("keys", .list [.str "nodict"])]) = .none := by rfl

/-- C3: the reference resolver is total (it is a plain function of the
input value, never an exception), returns the `value` field of the last
element of the `keys` sequence exactly when the input is a mapping whose
`keys` field is a non-empty sequence whose last element is a mapping
(absent when that element lacks `value`), and returns absent for every
other input shape. -/
theorem C3_extract_reference_id_follows_spec :
    ∀ reference : PyVal, extract_reference_id reference = extractTargetIdSpec reference := by
  intro r
  cases rate : r with
  | dict entries =>
    cases entries with
    | nil => rfl
    | cons hd tl =>
      unfold extract_reference_id extractTargetIdSpec
      simp only [pyTruthy, List.isEmpty_cons, Bool.not_false]
      rw [if_neg (by simp)]
      cases h : dictLookup (hd :: tl) "keys" with
      | none => simp
      | some v =>
        simp only [Option.getD_some]
        cases v with
        | list ks =>
          cases ks with
          | nil => simp [pyTruthy]
          | cons a as_ =>
            simp only [pyTruthy, List.isEmpty_cons, Bool.not_false, if_pos, List.length_cons]
            rw [if_pos (by omega)]
        | none => simp [pyTruthy]
        | bool b => cases b <;> simp [pyTruthy]
        | int n =>
          by_cases hn : n = 0
          · simp [pyTruthy, hn]
          · simp [pyTruthy, hn]
        | str s =>
          by_cases hs : s = ""
          · simp [pyTruthy, hs]
          · simp [pyTruthy, hs]
        | dict d2 =>
          cases d2 with
          | nil => simp [pyTruthy]
          | cons x xs => simp [pyTruthy]
  | none => rfl
  | bool b => cases b <;> rfl
  | int n =>
    unfold extract_reference_id extractTargetIdSpec
    split <;> rfl
  | str s =>
    unfold extract_reference_id extractTargetIdSpec
    split <;> rfl
  | list items =>
    unfold extract_reference_id extractTargetIdSpec
    split <;> rfl

/-! ## External checker result and normalizer
(`AasValidator._parse_aas_test_result`, `_extract_issues`, `_add_issue`)

The external `aas-test-engines` result object is a black box exposing a
compliance query `ok()` (which itself may raise), optionally an `_issues`
or `issues` attribute holding an untyped issue structure, and a `dump()`
text rendering (which may raise). -/

structure CheckResult where
  ok : Except String Bool
  issuesUnderscore : Option PyVal
  issuesField : Option PyVal
  dump : Except String String

/-- Python `path.startswith("/")` for the one-character prefix: the first
character is a slash. -/
def py_startswith_slash (p : String) : Bool :=
  match p.data with
  | c :: _ => c = '/'
  | [] => false

/-- The (message, severity, rule) triple `_add_issue` computes from one
issue (aas_validator.py lines 484-496): a plain string carries itself as
message with severity `error`; a mapping supplies the fields with defaults;
anything else is stringified. -/
def issue_msr (issue : PyVal) : PyVal × PyVal × PyVal :=
  match issue with
  | .str s => (.str s, .str "error", .str "aas-test-engines")
  | .dict entries =>
    ((dictLookup entries "message").getD (.str (pyStr issue)),
     (dictLookup entries "severity").getD (.str "error"),
     (dictLookup entries "rule").getD (.str "aas-test-engines"))
  | _ => (.str (pyStr issue), .str "error", .str "aas-test-engines")

/-- The raw severity value `_add_issue` routes on. -/
def issue_severity (issue : PyVal) : PyVal := (issue_msr issue).2.1

/-- Field values handed to the `ValidationError` constructor: strings pass
through, any other Python value is recorded by its textual form. -/
def pyFieldStr (v : PyVal) : String := pyStr v

/-- The `rule` field is `str | None`: a `None` value stays absent. -/
def pyFieldStrOpt : PyVal → Option String
  | .none => Option.none
  | v => some (pyStr v)

/-- The `ValidationError` record `_add_issue` constructs (lines 498-503),
with a missing leading slash prefixed onto the path. -/
def issue_diag (path : String) (issue : PyVal) : ValidationError :=
  { path := if py_startswith_slash path then path else "/" ++ path
    message := pyFieldStr (issue_msr issue).1
    severity := pyFieldStr (issue_msr issue).2.1
    rule := pyFieldStrOpt (issue_msr issue).2.2 }

/-- `AasValidator._add_issue` (lines 476-508): coerce one issue and route
it into the warnings bucket when its severity value equals the string
`warning`, otherwise into the errors bucket. -/
def add_issue (path : String) (issue : PyVal) (b : Buckets) : Buckets :=
  if issue_severity issue == PyVal.str "warning" then
    { b with warnings := b.warnings ++ [issue_diag path issue] }
  else
    { b with errors := b.errors ++ [issue_diag path issue] }

/-- Inner loop of `_extract_issues` over a bare issue sequence. -/
def extract_issues_items (items : List PyVal) (path : String) (b : Buckets) : Buckets :=
  match items with
  | [] => b
  | issue :: rest => extract_issues_items rest path (add_issue path issue b)

/-- Loop of `_extract_issues` over a mapping of path to issue-or-sequence. -/
def extract_issues_entries (entries : List (String × PyVal)) (b : Buckets) : Buckets :=
  match entries with
  | [] => b
  | (path, v) :: rest =>
    let b' :=
      match v with
      | .list items => extract_issues_items items path b
      | _ => add_issue path v b
    extract_issues_entries rest b'

/-- `AasValidator._extract_issues` (lines 458-474): a mapping iterates its
(path, issue-or-sequence) pairs, a bare sequence is flattened with path
`/`; anything else contributes nothing. -/
def extract_issues (issues : PyVal) (b : Buckets) : Buckets :=
  match issues with
  | .dict entries => extract_issues_entries entries b
  | .list items => extract_issues_items items "/" b
  | _ => b

def compliance_diag : ValidationError :=
  { path := "/"
    message := "AAS structure is compliant with metamodel specification"
    severity := "info"
    rule := some "aas-test-engines.compliance" }

def parse_failed_diag : ValidationError :=
  { path := "/"
    message := "AAS validation failed (see aas-test-engines output)"
    severity := "error"
    rule := some "aas-test-engines.validation" }

def dump_diag (s : String) : ValidationError :=
  { path := "/"
    message := "AAS validation failed: " ++ (s.take 500)
    severity := "error"
    rule := some "aas-test-engines.validation" }

/-- `AasValidator._parse_aas_test_result` (lines 398-456).  The compliance
query `result.ok()` sits before the `try` block, so an exception it raises
propagates (second component `some e`); everything inside the `try` that
raises is replaced by the generic fallback error diagnostic. -/
def parse_aas_test_result (result : CheckResult) (b : Buckets) : Buckets × Option String :=
  match result.ok with
  | .error e => (b, some e)
  | .ok true => ({ b with info := b.info ++ [compliance_diag] }, Option.none)
  | .ok false =>
    match result.issuesUnderscore with
    | some iss => (extract_issues iss b, Option.none)
    | Option.none =>
      match result.issuesField with
      | some iss => (extract_issues iss b, Option.none)
      | Option.none =>
        match result.dump with
        | .ok s =>
          if s ≠ "" then ({ b with errors := b.errors ++ [dump_diag s] }, Option.none)
          else (b, Option.none)
        | .error _ => ({ b with errors := b.errors ++ [parse_failed_diag] }, Option.none)

/-- C7: a compliant checker result makes the normalizer emit exactly one
info diagnostic, rule `aas-test-engines.compliance`, at path `/`, and
leave the error and warning buckets untouched. -/
theorem C7_compliant_single_info :
    ∀ (r : CheckResult) (b : Buckets), r.ok = .ok true →
      parse_aas_test_result r b =
        ({ b with info := b.info ++ [compliance_diag] }, Option.none) := by
  intro r b h
  unfold parse_aas_test_result
  rw [h]

/-- Witness for C7 on a concrete compliant result. -/
theorem C7_compliant_single_info_witness :
    parse_aas_test_result ⟨.ok true, Option.none, Option.none, .ok ""⟩ emptyBuckets =
      ({ emptyBuckets with info := emptyBuckets.info ++ [compliance_diag] }, Option.none) :=
  C7_compliant_single_info ⟨.ok true, Option.none, Option.none, .ok ""⟩ emptyBuckets rfl

/-- C8 counterexample: a checker result whose compliance query `ok()`
raises makes `_parse_aas_test_result` propagate that exception to the
orchestrator (the `ok()` call sits before the normalizer's `try` block),
contradicting the claim that normalization never propagates. -/
theorem C8_counterexample_ok_raises :
    (parse_aas_test_result ⟨.error "boom", Option.none, Option.none, .ok ""⟩ emptyBuckets).2 =
      some "boom" := rfl

/-- C8 (amended): whenever the compliance query itself returns (does not
raise), normalization never propagates an exception, and an exception
raised during issue extraction (here: `dump()` raising, with no structured
issue attribute available) is replaced by the single generic error
diagnostic with rule `aas-test-engines.validation`. -/
theorem C8_normalizer_catches_extraction_exceptions :
    ∀ (r : CheckResult) (b : Buckets) (c : Bool), r.ok = .ok c →
      (parse_aas_test_result r b).2 = Option.none ∧
      (∀ e, c = false → r.issuesUnderscore = Option.none → r.issuesField = Option.none →
        r.dump = .error e →
        (parse_aas_test_result r b).1 = { b with errors := b.errors ++ [parse_failed_diag] }) := by
  intro r b c h
  constructor
  · unfold parse_aas_test_result
    rw [h]
    cases c
    · cases hu : r.issuesUnderscore with
      | some iss => simp
      | none =>
        cases hf : r.issuesField with
        | some iss => simp
        | none =>
          cases hd : r.dump with
          | ok s =>
            by_cases hs : s = "" <;> simp [hs]
          | error e => simp
    · simp
  · intro e hc hu hf hd
    subst hc
    unfold parse_aas_test_result
    rw [h, hu, hf, hd]

/-- Witness for C8's amended statement on a concrete non-compliant result
whose `dump()` raises. -/
theorem C8_normalizer_catches_extraction_exceptions_witness :
    (parse_aas_test_result ⟨.ok false, Option.none, Option.none, .error "crash"⟩ emptyBuckets).2 =
        Option.none ∧
      (parse_aas_test_result ⟨.ok false, Option.none, Option.none, .error "crash"⟩ emptyBuckets).1 =
        { emptyBuckets with errors := emptyBuckets.errors ++ [parse_failed_diag] } := by
  have h := C8_normalizer_catches_extraction_exceptions
    ⟨.ok false, Option.none, Option.none, .error "crash"⟩ emptyBuckets false rfl
  exact ⟨h.1, h.2 "crash" rfl rfl rfl rfl⟩

/-- C9: an issue is routed to the warnings bucket exactly when its severity
value equals the string `warning` and to the errors bucket otherwise; an
absent severity defaults to the string `error`; a plain-string issue
becomes an error diagnostic with rule `aas-test-engines`; and the produced
diagnostic's path always begins with a slash. -/
theorem C9_issue_routing :
    ∀ (path : String) (issue : PyVal) (b : Buckets),
      ((issue_severity issue = PyVal.str "warning" →
          add_issue path issue b =
            { b with warnings := b.warnings ++ [issue_diag path issue] }) ∧
        (issue_severity issue ≠ PyVal.str "warning" →
          add_issue path issue b =
            { b with errors := b.errors ++ [issue_diag path issue] })) ∧
      (∀ entries, issue = .dict entries → dictLookup entries "severity" = Option.none →
        issue_severity issue = .str "error") ∧
      (∀ s, issue = .str s →
        issue_severity issue = .str "error" ∧
        issue_diag path issue =
          { path := if py_startswith_slash path then path else "/" ++ path
            message := s
            severity := "error"
            rule := some "aas-test-engines" }) ∧
      py_startswith_slash (issue_diag path issue).path = true := by
  intro path issue b
  refine ⟨⟨?_, ?_⟩, ?_, ?_, ?_⟩
  · intro h
    unfold add_issue
    rw [if_pos (by simp [h])]
  · intro h
    unfold add_issue
    rw [if_neg (by simpa using h)]
  · intro entries hi hs
    subst hi
    simp [issue_severity, issue_msr, hs]
  · intro s hi
    subst hi
    exact ⟨rfl, rfl⟩
  · unfold issue_diag
    by_cases h : py_startswith_slash path = true
    · simp only [h, if_true]
    · simp only [h, Bool.false_eq_true, if_false]
      unfold py_startswith_slash
      have : ("/" ++ path).data = '/' :: path.data := by
        simp [String.data_append]
      rw [this]
      simp

/-- Witness for C9: a `warning`-severity mapping routes to warnings, a
plain string routes to errors with rule `aas-test-engines`. -/
theorem C9_issue_routing_witness :
    add_issue "x" (.dict [("severity", .str "warning")]) emptyBuckets =
        { emptyBuckets with
            warnings := emptyBuckets.warnings ++
              [issue_diag "x" (.dict [("severity", .str "warning")])] } ∧
      add_issue "/y" (.str "boom") emptyBuckets =
        { emptyBuckets with
            errors := emptyBuckets.errors ++ [issue_diag "/y" (.str "boom")] } ∧
      py_startswith_slash (issue_diag "x" (.dict [("severity", .str "warning")])).path = true := by
  refine ⟨?_, ?_, ?_⟩
  · exact ((C9_issue_routing "x" (.dict [("severity", .str "warning")]) emptyBuckets).1).1 rfl
  · exact ((C9_issue_routing "/y" (.str "boom") emptyBuckets).1).2 (by decide)
  · exact (C9_issue_routing "x" (.dict [("severity", .str "warning")]) emptyBuckets).2.2.2

/-! ## Structural walker (`AasValidator._validate_structure`) -/

def struct_missing_shells_diag : ValidationError :=
  { path := "/", message := "Missing assetAdministrationShells array"
    severity := "warning", rule := some "schema.structure" }

def struct_missing_submodels_diag : ValidationError :=
  { path := "/", message := "Missing submodels array"
    severity := "warning", rule := some "schema.structure" }

/-- `AasValidator._validate_structure` (lines 171-197): warn for each of
the two required top-level sequences missing from the document. -/
def validate_structure (env : PyVal) (b : Buckets) : Buckets × Option String :=
  match pyContainsStr env "assetAdministrationShells" with
  | .error e => (b, some e)
  | .ok hasShells =>
    let b1 :=
      if hasShells then b
      else { b with warnings := b.warnings ++ [struct_missing_shells_diag] }
    match pyContainsStr env "submodels" with
    | .error e => (b1, some e)
    | .ok hasSubs =>
      (if hasSubs then b1
       else { b1 with warnings := b1.warnings ++ [struct_missing_submodels_diag] },
       Option.none)

/-! ## Identifier index builder (first half of `_validate_references`) -/

/-- One collection pass: `for x in items: if "id" in x: valid_ids.add(x["id"])`. -/
def collect_ids_loop (items : List PyVal) (acc : List PyVal) : Except String (List PyVal) :=
  match items with
  | [] => .ok acc
  | x :: rest => do
    let hasId ← pyContainsStr x "id"
    if hasId then
      let idv ← pyIndexStr x "id"
      let acc' ← pySetAdd idv acc
      collect_ids_loop rest acc'
    else
      collect_ids_loop rest acc

/-- Collect the ids found under one top-level key (missing key treated as
the empty sequence). -/
def collect_ids_from (env : PyVal) (key : String) (acc : List PyVal) :
    Except String (List PyVal) := do
  let v ← pyGetD env key (.list [])
  let items ← pyIterList v
  collect_ids_loop items acc

/-- The identifier index built by `_validate_references` (lines 210-226):
ids of shells, submodels and concept descriptions, in that order. -/
def collect_valid_ids (env : PyVal) : Except String (List PyVal) := do
  let acc1 ← collect_ids_from env "assetAdministrationShells" []
  let acc2 ← collect_ids_from env "submodels" acc1
  collect_ids_from env "conceptDescriptions" acc2

/-! ## Reference walker over shells (`_check_references_in_aas`) -/

def broken_ref_diag (i j : Nat) (refId : PyVal) : ValidationError :=
  { path := "/assetAdministrationShells/" ++ toString i ++ "/submodels/" ++ toString j
    message := "Submodel reference points to non-existent element: " ++ pyStr refId
    severity := "error", rule := some "references.broken" }

def derived_from_diag (i : Nat) (refId : PyVal) : ValidationError :=
  { path := "/assetAdministrationShells/" ++ toString i ++ "/derivedFrom"
    message := "derivedFrom reference points to non-existent AAS: " ++ pyStr refId
    severity := "warning", rule := some "references.external" }

/-- Inner loop over one shell's `submodels` entries (lines 242-252): a
truthy extracted id absent from the index appends a `references.broken`
error. -/
def aas_submodel_refs_loop (subs : List PyVal) (j i : Nat) (validIds : List PyVal)
    (b : Buckets) : Buckets × Option String :=
  match subs with
  | [] => (b, Option.none)
  | sm_ref :: rest =>
    let ref_id := extract_reference_id sm_ref
    if pyTruthy ref_id then
      match pySetContains ref_id validIds with
      | .error e => (b, some e)
      | .ok mem =>
        if mem then aas_submodel_refs_loop rest (j + 1) i validIds b
        else aas_submodel_refs_loop rest (j + 1) i validIds
          { b with errors := b.errors ++ [broken_ref_diag i j ref_id] }
    else aas_submodel_refs_loop rest (j + 1) i validIds b

/-- The `derivedFrom` check of one shell (lines 255-265): a truthy
extracted id absent from the index appends a `references.external`
warning. -/
def aas_derived_from_check (aas : PyVal) (i : Nat) (validIds : List PyVal)
    (b : Buckets) : Buckets × Option String :=
  match pyContainsStr aas "derivedFrom" with
  | .error e => (b, some e)
  | .ok false => (b, Option.none)
  | .ok true =>
    match pyIndexStr aas "derivedFrom" with
    | .error e => (b, some e)
    | .ok df =>
      let ref_id := extract_reference_id df
      if pyTruthy ref_id then
        match pySetContains ref_id validIds with
        | .error e => (b, some e)
        | .ok mem =>
          if mem then (b, Option.none)
          else ({ b with warnings := b.warnings ++ [derived_from_diag i ref_id] },
                Option.none)
      else (b, Option.none)

/-- Loop of `_check_references_in_aas` over the shells. -/
def aas_shells_loop (shells : List PyVal) (i : Nat) (validIds : List PyVal)
    (b : Buckets) : Buckets × Option String :=
  match shells with
  | [] => (b, Option.none)
  | aas :: rest =>
    match pyGetD aas "submodels" (.list []) with
    | .error e => (b, some e)
    | .ok subsVal =>
      match pyIterList subsVal with
      | .error e => (b, some e)
      | .ok subs =>
        match aas_submodel_refs_loop subs 0 i validIds b with
        | (b1, some e) => (b1, some e)
        | (b1, Option.none) =>
          match aas_derived_from_check aas i validIds b1 with
          | (b2, some e) => (b2, some e)
          | (b2, Option.none) => aas_shells_loop rest (i + 1) validIds b2

/-- `AasValidator._check_references_in_aas` (lines 232-265). -/
def check_references_in_aas (env : PyVal) (validIds : List PyVal) (b : Buckets) :
    Buckets × Option String :=
  match pyGetD env "assetAdministrationShells" (.list []) with
  | .error e => (b, some e)
  | .ok shellsVal =>
    match pyIterList shellsVal with
    | .error e => (b, some e)
    | .ok shells => aas_shells_loop shells 0 validIds b

/-! ## Recursive element walker (`_check_submodel_elements`) -/

def ref_elem_diag (elemPath : String) (refId : PyVal) : ValidationError :=
  { path := elemPath
    message := "ReferenceElement points to unknown element: " ++ pyStr refId
    severity := "warning", rule := some "references.unknown" }

def rel_first_diag (elemPath : String) (refId : PyVal) : ValidationError :=
  { path := elemPath ++ "/first"
    message := "RelationshipElement.first points to unknown element: " ++ pyStr refId
    severity := "warning", rule := some "references.unknown" }

def rel_second_diag (elemPath : String) (refId : PyVal) : ValidationError :=
  { path := elemPath ++ "/second"
    message := "RelationshipElement.second points to unknown element: " ++ pyStr refId
    severity := "warning", rule := some "references.unknown" }

/-- The shared `if <ref>: ref_id = extract(<ref>); if ref_id and ref_id
not in valid_ids: <bucket>.append(<diag>)` shape that the
ReferenceElement branch and both RelationshipElement sub-checks all
follow (lines 298-340). -/
def rel_ref_check (refVal : PyVal) (diag : PyVal → ValidationError)
    (validIds : List PyVal) (b : Buckets) : Buckets × Option String :=
  if pyTruthy refVal then
    let rid := extract_reference_id refVal
    if pyTruthy rid then
      match pySetContains rid validIds with
      | .error e => (b, some e)
      | .ok mem =>
        if mem then (b, Option.none)
        else ({ b with warnings := b.warnings ++ [diag rid] }, Option.none)
    else (b, Option.none)
  else (b, Option.none)

/-- The non-recursive per-element reference checks of
`_check_submodel_elements` (lines 295-347): ReferenceElement,
RelationshipElement and Entity branches.  Other model types fall through
untouched. -/
def check_elem_direct (modelType elem : PyVal) (elemPath : String)
    (validIds : List PyVal) (b : Buckets) : Buckets × Option String :=
  if modelType == PyVal.str "ReferenceElement" then
    match pyGetD elem "value" .none with
    | .error e => (b, some e)
    | .ok value => rel_ref_check value (ref_elem_diag elemPath) validIds b
  else if modelType == PyVal.str "RelationshipElement" then
    match pyGetD elem "first" .none with
    | .error e => (b, some e)
    | .ok first =>
      match pyGetD elem "second" .none with
      | .error e => (b, some e)
      | .ok second =>
        match rel_ref_check first (rel_first_diag elemPath) validIds b with
        | (b1, some e) => (b1, some e)
        | (b1, Option.none) => rel_ref_check second (rel_second_diag elemPath) validIds b1
  else if modelType == PyVal.str "Entity" then
    match pyGetD elem "globalAssetId" .none with
    | .error e => (b, some e)
    | .ok _ => (b, Option.none)
  else (b, Option.none)

theorem sizeOf_pyVal_pos (v : PyVal) : 1 ≤ sizeOf v := by
  cases v <;> simp_arith

theorem dictLookup_sizeOf_lt {entries : List (String × PyVal)} {key : String} {v : PyVal}
    (h : dictLookup entries key = some v) : sizeOf v < sizeOf entries := by
  induction entries with
  | nil => simp [dictLookup] at h
  | cons hd tl ih =>
    obtain ⟨k, w⟩ := hd
    by_cases hk : k = key
    · simp [dictLookup, hk] at h
      subst h
      simp
      omega
    · simp [dictLookup, hk] at h
      have := ih h
      simp
      omega

theorem pyGetD_sizeOf {x : PyVal} {k : String} {d v : PyVal} (h : pyGetD x k d = .ok v) :
    v = d ∨ sizeOf v < sizeOf x := by
  cases x <;> simp [pyGetD] at h
  case dict entries =>
    cases hl : dictLookup entries k with
    | none =>
      rw [hl] at h
      exact Or.inl h.symm
    | some w =>
      rw [hl] at h
      simp at h
      subst h
      right
      have := dictLookup_sizeOf_lt hl
      simp
      omega

theorem pyGetD_value_sizeOf {x : PyVal} {items rest : List PyVal}
    (h : pyGetD x "value" (.list []) = .ok (.list items)) :
    sizeOf items < sizeOf (x :: rest) := by
  have hx := sizeOf_pyVal_pos x
  rcases pyGetD_sizeOf h with heq | hlt
  · injection heq with h2
    subst h2
    simp
    omega
  · simp at hlt ⊢
    omega

/-- `AasValidator._check_submodel_elements` (lines 284-360): iterate the
element sequence with a running index; run the direct per-element checks;
for SubmodelElementCollection / SubmodelElementList nodes whose `value`
field is a sequence, recurse into it with the extended path.  The second
result component carries an escaped exception. -/
def check_submodel_elements (elements : List PyVal) (i : Nat) (basePath : String)
    (validIds : List PyVal) (b : Buckets) : Buckets × Option String :=
  match elements with
  | [] => (b, Option.none)
  | elem :: rest =>
    let elemPath := basePath ++ "/" ++ toString i
    match pyGetD elem "modelType" .none with
    | .error e => (b, some e)
    | .ok modelType =>
      match check_elem_direct modelType elem elemPath validIds b with
      | (b1, some e) => (b1, some e)
      | (b1, Option.none) =>
        if modelType == PyVal.str "SubmodelElementCollection" ||
            modelType == PyVal.str "SubmodelElementList" then
          match hv : pyGetD elem "value" (.list []) with
          | .error e => (b1, some e)
          | .ok (.list items) =>
            match check_submodel_elements items 0 (elemPath ++ "/value") validIds b1 with
            | (b2, some e) => (b2, some e)
            | (b2, Option.none) => check_submodel_elements rest (i + 1) basePath validIds b2
          | .ok _ => check_submodel_elements rest (i + 1) basePath validIds b1
        else check_submodel_elements rest (i + 1) basePath validIds b1
termination_by sizeOf elements
decreasing_by
  all_goals first
    | exact pyGetD_value_sizeOf hv
    | simp

/-- Loop of `_check_references_in_submodels` over the submodels. -/
def submodels_loop (sms : List PyVal) (i : Nat) (validIds : List PyVal)
    (b : Buckets) : Buckets × Option String :=
  match sms with
  | [] => (b, Option.none)
  | sm :: rest =>
    match pyGetD sm "submodelElements" (.list []) with
    | .error e => (b, some e)
    | .ok elsVal =>
      match pyIterList elsVal with
      | .error e => (b, some e)
      | .ok els =>
        match check_submodel_elements els 0
            ("/submodels/" ++ toString i ++ "/submodelElements") validIds b with
        | (b1, some e) => (b1, some e)
        | (b1, Option.none) => submodels_loop rest (i + 1) validIds b1

/-- `AasValidator._check_references_in_submodels` (lines 267-282). -/
def check_references_in_submodels (env : PyVal) (validIds : List PyVal) (b : Buckets) :
    Buckets × Option String :=
  match pyGetD env "submodels" (.list []) with
  | .error e => (b, some e)
  | .ok smsVal =>
    match pyIterList smsVal with
    | .error e => (b, some e)
    | .ok sms => submodels_loop sms 0 validIds b

/-- `AasValidator._validate_references` (lines 199-230): build the index,
then check shell references and submodel-element references. -/
def validate_references (env : PyVal) (b : Buckets) : Buckets × Option String :=
  match collect_valid_ids env with
  | .error e => (b, some e)
  | .ok validIds =>
    match check_references_in_aas env validIds b with
    | (b1, some e) => (b1, some e)
    | (b1, Option.none) => check_references_in_submodels env validIds b1

/-! ## Semantic walker (`_validate_semantics`) -/

def semantic_diag (i : Nat) : ValidationError :=
  { path := "/submodels/" ++ toString i
    message := "Submodel missing semanticId"
    severity := "warning", rule := some "semantics.semantic_id" }

def semantics_loop (sms : List PyVal) (i : Nat) (b : Buckets) : Buckets × Option String :=
  match sms with
  | [] => (b, Option.none)
  | sm :: rest =>
    match pyContainsStr sm "semanticId" with
    | .error e => (b, some e)
    | .ok true => semantics_loop rest (i + 1) b
    | .ok false =>
      semantics_loop rest (i + 1) { b with warnings := b.warnings ++ [semantic_diag i] }

/-- `AasValidator._validate_semantics` (lines 378-396). -/
def validate_semantics (env : PyVal) (b : Buckets) : Buckets × Option String :=
  match pyGetD env "submodels" (.list []) with
  | .error e => (b, some e)
  | .ok v =>
    match pyIterList v with
    | .error e => (b, some e)
    | .ok sms => semantics_loop sms 0 b

/-! ## Orchestrator (`validate`, `validate_aasx`, `validate_json_bytes`) -/

def exception_diag (e : String) : ValidationError :=
  { path := "/", message := "Validation exception: " ++ e
    severity := "error", rule := some "validation.exception" }

def aasx_exception_diag (e : String) : ValidationError :=
  { path := "/", message := "AASX validation exception: " ++ e
    severity := "error", rule := some "validation.exception" }

def json_decode_diag (e : String) : ValidationError :=
  { path := "/", message := "Invalid JSON: " ++ e
    severity := "error", rule := some "schema.json" }

/-- `options = options or {}` at the head of `AasValidator.validate`. -/
def options_or_empty (options : Option PyVal) : PyVal :=
  match options with
  | Option.none => PyVal.dict []
  | some o => if pyTruthy o then o else PyVal.dict []

/-- The body of `AasValidator.validate`'s `try` block (lines 57-70): pick
the version from the options, invoke the external checker, normalize its
result, then run the three walkers, threading the diagnostic buckets.  The
second component carries the first escaped exception; the buckets keep
every diagnostic appended before it, exactly like Python's mutable lists. -/
def validatePipeline (latest : PyVal) (check : PyVal → PyVal → Except String CheckResult)
    (env : PyVal) (options : Option PyVal) : Buckets × Option String :=
  -- `options = options or {}`; `version = options.get("version", latest)`
  match pyGetD (options_or_empty options) "version" latest with
  | .error e => (emptyBuckets, some e)
  | .ok version =>
    match check env version with
    | .error e => (emptyBuckets, some e)
    | .ok result =>
      match parse_aas_test_result result emptyBuckets with
      | (b1, some e) => (b1, some e)
      | (b1, Option.none) =>
        match validate_structure env b1 with
        | (b2, some e) => (b2, some e)
        | (b2, Option.none) =>
          match validate_references env b2 with
          | (b3, some e) => (b3, some e)
          | (b3, Option.none) => validate_semantics env b3

/-- `AasValidator.validate` (lines 35-92): run the pipeline; an escaped
exception is converted into a `validation.exception` error diagnostic;
`valid` is the emptiness of the final error list. -/
def validate (latest : PyVal) (check : PyVal → PyVal → Except String CheckResult)
    (env : PyVal) (options : Option PyVal) (elapsed : Float) : ValidationResult :=
  let pr := validatePipeline latest check env options
  let errors := pr.1.errors ++
    (match pr.2 with | some e => [exception_diag e] | Option.none => [])
  { valid := errors.length == 0
    errors := errors
    warnings := pr.1.warnings
    info := pr.1.info
    test_suite := "aas-test-engines"
    duration_ms := elapsed }

/-- `AasValidator.validate_aasx` (lines 94-138): ask the external checker
to validate the container bytes directly and normalize; an escaped
exception becomes a `validation.exception` diagnostic. -/
def validate_aasx (checkOutcome : Except String CheckResult) (elapsed : Float) :
    ValidationResult :=
  let pr := match checkOutcome with
    | .error e => (emptyBuckets, some e)
    | .ok result => parse_aas_test_result result emptyBuckets
  let errors := pr.1.errors ++
    (match pr.2 with | some e => [aasx_exception_diag e] | Option.none => [])
  { valid := errors.length == 0
    errors := errors
    warnings := pr.1.warnings
    info := pr.1.info
    test_suite := "aas-test-engines"
    duration_ms := elapsed }

/-- Outcome of `content.decode("utf-8")` followed by `json.loads(...)` on
the uploaded bytes: invalid UTF-8 raises `UnicodeDecodeError`, undecodable
text raises `json.JSONDecodeError`, otherwise a document value results.
Both decoders are Python-library collaborators, so the entry point is
parameterized by this outcome. -/
inductive DecodeOutcome where
  | unicodeError (msg : String)
  | jsonError (msg : String)
  | ok (environment : PyVal)

/-- `AasValidator.validate_json_bytes` (lines 140-169).  Only
`json.JSONDecodeError` is caught (yielding the `schema.json` report with
zero duration); a `UnicodeDecodeError` from `content.decode("utf-8")` is
not caught and propagates to the caller, hence the `Except` result. -/
def validate_json_bytes (latest : PyVal)
    (check : PyVal → PyVal → Except String CheckResult)
    (decoded : DecodeOutcome) (elapsed : Float) : Except String ValidationResult :=
  match decoded with
  | .unicodeError m => .error m
  | .jsonError m =>
    .ok { valid := false
          errors := [json_decode_diag m]
          warnings := []
          info := []
          test_suite := "aas-test-engines"
          duration_ms := 0 }
  | .ok env => .ok (validate latest check env Option.none elapsed)

/-! ## Claims C1, C2, C6 -/

/-- C1: for every report produced by any of the three entry points, the
`valid` field is true iff the error bucket is empty.  (`validate` and
`validate_aasx` always return a report; `validate_json_bytes` returns one
whenever it does not propagate the UTF-8 decode failure.) -/
theorem C1_valid_iff_errors_empty :
    (∀ latest check env options elapsed,
      ((validate latest check env options elapsed).valid = true ↔
        (validate latest check env options elapsed).errors = [])) ∧
    (∀ checkOutcome elapsed,
      ((validate_aasx checkOutcome elapsed).valid = true ↔
        (validate_aasx checkOutcome elapsed).errors = [])) ∧
    (∀ latest check decoded elapsed r,
      validate_json_bytes latest check decoded elapsed = .ok r →
      (r.valid = true ↔ r.errors = [])) := by
  have hv : ∀ latest check env options elapsed,
      ((validate latest check env options elapsed).valid = true ↔
        (validate latest check env options elapsed).errors = []) := by
    intro latest check env options elapsed
    simp [validate, List.length_eq_zero]
  refine ⟨hv, ?_, ?_⟩
  · intro checkOutcome elapsed
    simp [validate_aasx, List.length_eq_zero]
  · intro latest check decoded elapsed r h
    cases decoded with
    | unicodeError m => simp [validate_json_bytes] at h
    | jsonError m =>
      simp [validate_json_bytes] at h
      subst h
      simp
    | ok env =>
      simp [validate_json_bytes] at h
      subst h
      exact hv latest check env Option.none elapsed

def c1_sample_check : PyVal → PyVal → Except String CheckResult :=
  fun _ _ => .ok ⟨.ok true, Option.none, Option.none, .ok ""⟩

def c1_sample_report : ValidationResult :=
  { valid := false
    errors := [json_decode_diag "bad"]
    warnings := []
    info := []
    test_suite := "aas-test-engines"
    duration_ms := 0 }

/-- Witness for C1 on the byte-oriented entry point at a concrete
malformed-JSON outcome. -/
theorem C1_valid_iff_errors_empty_witness :
    validate_json_bytes (PyVal.str "3.0") c1_sample_check (.jsonError "bad") 0 =
        .ok c1_sample_report ∧
      (c1_sample_report.valid = true ↔ c1_sample_report.errors = []) :=
  ⟨rfl, C1_valid_iff_errors_empty.2.2 (PyVal.str "3.0") c1_sample_check
    (.jsonError "bad") 0 c1_sample_report rfl⟩

/-- C2: `validate` always returns a report (it is a total function into
`ValidationResult` by construction) and any exception escaping the
pipeline — external checker, normalizer or walker — is converted into a
`validation.exception` error diagnostic at path `/` carrying the
exception's message (see `exception_diag`). -/
theorem C2_validate_catches_pipeline_exceptions :
    ∀ latest check env options elapsed e,
      (validatePipeline latest check env options).2 = some e →
      exception_diag e ∈ (validate latest check env options elapsed).errors := by
  intro latest check env options elapsed e h
  simp [validate, h]

/-- Witness for C2: a checker that raises produces the exception
diagnostic in the report. -/
theorem C2_validate_catches_pipeline_exceptions_witness :
    exception_diag "boom" ∈
      (validate (PyVal.str "3.0") (fun _ _ => Except.error "boom")
        (PyVal.dict []) Option.none 0).errors :=
  C2_validate_catches_pipeline_exceptions (PyVal.str "3.0")
    (fun _ _ => Except.error "boom") (PyVal.dict []) Option.none 0 "boom" rfl

def c6_sample_check : PyVal → PyVal → Except String CheckResult :=
  fun _ _ => .ok ⟨.ok true, Option.none, Option.none, .ok ""⟩

/-- C6 counterexample: a byte string that is not valid UTF-8 (for example
the single byte 0xff) makes `content.decode("utf-8")` raise
`UnicodeDecodeError`, which the `except json.JSONDecodeError` clause does
not catch, so `validate_json_bytes` raises instead of returning the
claimed report. -/
theorem C6_counterexample_invalid_utf8 :
    validate_json_bytes (PyVal.str "3.0") c6_sample_check
        (.unicodeError "utf-8 codec cannot decode byte 0xff in position 0") 0 =
      .error "utf-8 codec cannot decode byte 0xff in position 0" := rfl

/-- C6 (amended): for every byte string that decodes as UTF-8 text but
whose text is not valid JSON, `validate_json_bytes` returns (never raises)
a report with `valid = false`, exactly one error diagnostic with rule
`schema.json` at path `/`, empty warnings and info buckets, and
`duration_ms = 0`; a byte string that is not valid UTF-8 instead
propagates the decode exception. -/
theorem C6_malformed_json_single_error :
    ∀ latest check m elapsed,
      validate_json_bytes latest check (.jsonError m) elapsed =
        .ok { valid := false
              errors := [json_decode_diag m]
              warnings := []
              info := []
              test_suite := "aas-test-engines"
              duration_ms := 0 } := by
  intro latest check m elapsed
  rfl

/-! ## Claim C10: capability-query evaluation per process

`routes/validate.py` constructs a fresh `AasValidator` inside every
request handler, and `AasValidator.__init__` (aas_validator.py lines
25-33) eagerly calls `aas_file.supported_versions()` /
`latest_version()`; only the health module (`routes/health.py` lines
15-48) memoizes its own probe result in module state.  The model below
counts evaluations of the supported/latest version query as process
effects. -/

structure EngineProcState where
  versionQueryCount : Nat
  readyCache : Option Bool
  deriving DecidableEq, Repr

/-- `AasValidator.__init__`: every construction queries the version list. -/
def aas_validator_init (s : EngineProcState) : EngineProcState :=
  { s with versionQueryCount := s.versionQueryCount + 1 }

/-- One call of `validate_json` / `validate_file`: `validator =
AasValidator()` runs before validating. -/
def route_validate_call (s : EngineProcState) : EngineProcState :=
  aas_validator_init s

/-- A sequence of n validation calls in one process. -/
def run_validate_calls : Nat → EngineProcState → EngineProcState
  | 0, s => s
  | n + 1, s => run_validate_calls n (route_validate_call s)

/-- `routes/health.py _check_aas_test_engines`: the readiness probe's
status is computed lazily once and memoized in module-level state. -/
def check_aas_test_engines_probe (s : EngineProcState) : EngineProcState × Bool :=
  match s.readyCache with
  | some st => (s, st)
  | Option.none =>
    ({ s with versionQueryCount := s.versionQueryCount + 1, readyCache := some true }, true)

/-- C10 counterexample: two validation calls in a fresh process evaluate
the supported/latest version query twice, contradicting the claim that no
sequence of validation calls causes more than one evaluation. -/
theorem C10_counterexample_two_calls :
    (run_validate_calls 2 ⟨0, Option.none⟩).versionQueryCount = 2 ∧
      ¬ (run_validate_calls 2 ⟨0, Option.none⟩).versionQueryCount ≤ 1 := by
  constructor
  · rfl
  · decide

/-- C10 (amended): the version query is evaluated eagerly once per
validator construction, and every validation call constructs a fresh
validator, so n validation calls cause exactly n evaluations; only the
readiness probe's capability status is process-wide memoized state (a
second probe performs no further evaluation). -/
theorem C10_version_query_per_call :
    (∀ n s, (run_validate_calls n s).versionQueryCount = s.versionQueryCount + n) ∧
    (∀ s, (check_aas_test_engines_probe (check_aas_test_engines_probe s).1).1.versionQueryCount =
      (check_aas_test_engines_probe s).1.versionQueryCount) := by
  constructor
  · intro n
    induction n with
    | zero => intro s; simp [run_validate_calls]
    | succ n ih =>
      intro s
      simp [run_validate_calls, route_validate_call, aas_validator_init, ih]
      omega
  · intro s
    cases h : s.readyCache with
    | some st => simp [check_aas_test_engines_probe, h]
    | none => simp [check_aas_test_engines_probe, h]

/-! ## Bucket evolution properties

The walkers only append to the mutable diagnostic lists.  Three
increasingly loose descriptions of how a call transforms the buckets:
appending errors only, appending warnings only, or appending to any
bucket.  These drive both the claims about which severities a walker can
produce and the preservation of earlier diagnostics. -/

def ErrOnlyFrom (b b' : Buckets) : Prop :=
  (∃ t, b'.errors = b.errors ++ t) ∧ b'.warnings = b.warnings ∧ b'.info = b.info

def WarnOnlyFrom (b b' : Buckets) : Prop :=
  b'.errors = b.errors ∧ (∃ t, b'.warnings = b.warnings ++ t) ∧ b'.info = b.info

def ExtendsFrom (b b' : Buckets) : Prop :=
  (∃ t, b'.errors = b.errors ++ t) ∧ (∃ t, b'.warnings = b.warnings ++ t) ∧
    (∃ t, b'.info = b.info ++ t)

theorem errOnly_refl (b : Buckets) : ErrOnlyFrom b b :=
  ⟨⟨[], by simp⟩, rfl, rfl⟩

theorem warnOnly_refl (b : Buckets) : WarnOnlyFrom b b :=
  ⟨rfl, ⟨[], by simp⟩, rfl⟩

theorem errOnly_trans {a b c : Buckets} (h1 : ErrOnlyFrom a b) (h2 : ErrOnlyFrom b c) :
    ErrOnlyFrom a c := by
  obtain ⟨⟨t1, he1⟩, hw1, hi1⟩ := h1
  obtain ⟨⟨t2, he2⟩, hw2, hi2⟩ := h2
  exact ⟨⟨t1 ++ t2, by rw [he2, he1, List.append_assoc]⟩, hw2.trans hw1, hi2.trans hi1⟩

theorem warnOnly_trans {a b c : Buckets} (h1 : WarnOnlyFrom a b) (h2 : WarnOnlyFrom b c) :
    WarnOnlyFrom a c := by
  obtain ⟨he1, ⟨t1, hw1⟩, hi1⟩ := h1
  obtain ⟨he2, ⟨t2, hw2⟩, hi2⟩ := h2
  exact ⟨he2.trans he1, ⟨t1 ++ t2, by rw [hw2, hw1, List.append_assoc]⟩, hi2.trans hi1⟩

theorem extendsFrom_of_warnOnly {a b : Buckets} (h : WarnOnlyFrom a b) : ExtendsFrom a b :=
  ⟨⟨[], by simp [h.1]⟩, h.2.1, ⟨[], by simp [h.2.2]⟩⟩

theorem extendsFrom_of_errOnly {a b : Buckets} (h : ErrOnlyFrom a b) : ExtendsFrom a b :=
  ⟨h.1, ⟨[], by simp [h.2.1]⟩, ⟨[], by simp [h.2.2]⟩⟩

theorem extendsFrom_trans {a b c : Buckets} (h1 : ExtendsFrom a b) (h2 : ExtendsFrom b c) :
    ExtendsFrom a c := by
  obtain ⟨⟨t1, he1⟩, ⟨u1, hw1⟩, ⟨v1, hi1⟩⟩ := h1
  obtain ⟨⟨t2, he2⟩, ⟨u2, hw2⟩, ⟨v2, hi2⟩⟩ := h2
  refine ⟨⟨t1 ++ t2, ?_⟩, ⟨u1 ++ u2, ?_⟩, ⟨v1 ++ v2, ?_⟩⟩
  · rw [he2, he1, List.append_assoc]
  · rw [hw2, hw1, List.append_assoc]
  · rw [hi2, hi1, List.append_assoc]

theorem mem_errors_of_extendsFrom {a b : Buckets} {x : ValidationError}
    (h : ExtendsFrom a b) (hx : x ∈ a.errors) : x ∈ b.errors := by
  obtain ⟨⟨t, he⟩, _, _⟩ := h
  rw [he]
  exact List.mem_append_left _ hx

theorem mem_warnings_of_extendsFrom {a b : Buckets} {x : ValidationError}
    (h : ExtendsFrom a b) (hx : x ∈ a.warnings) : x ∈ b.warnings := by
  obtain ⟨_, ⟨t, hw⟩, _⟩ := h
  rw [hw]
  exact List.mem_append_left _ hx

theorem rel_ref_check_warnOnly (refVal : PyVal) (diag : PyVal → ValidationError)
    (ids : List PyVal) (b : Buckets) :
    WarnOnlyFrom b (rel_ref_check refVal diag ids b).1 := by
  unfold rel_ref_check
  dsimp only
  repeat' split
  all_goals first
    | exact warnOnly_refl _
    | exact ⟨rfl, ⟨_, rfl⟩, rfl⟩

theorem check_elem_direct_warnOnly (mt elem : PyVal) (p : String)
    (ids : List PyVal) (b : Buckets) :
    WarnOnlyFrom b (check_elem_direct mt elem p ids b).1 := by
  unfold check_elem_direct
  repeat' split
  all_goals try exact warnOnly_refl _
  all_goals try exact rel_ref_check_warnOnly _ _ _ _
  · rename_i b1 e heq
    have h := congrArg Prod.fst heq
    simp only [] at h
    rw [← h]
    exact rel_ref_check_warnOnly _ _ _ _
  · rename_i b1 heq
    have h := congrArg Prod.fst heq
    simp only [] at h
    refine warnOnly_trans ?_ (rel_ref_check_warnOnly _ _ _ _)
    rw [← h]
    exact rel_ref_check_warnOnly _ _ _ _

theorem rel_ref_check_trigger (refVal : PyVal) (diag : PyVal → ValidationError)
    (ids : List PyVal) (b : Buckets)
    (ht : pyTruthy refVal = true)
    (hr : pyTruthy (extract_reference_id refVal) = true)
    (hh : pyHashable (extract_reference_id refVal) = true)
    (hm : pyMem (extract_reference_id refVal) ids = false) :
    rel_ref_check refVal diag ids b =
      ({ b with warnings := b.warnings ++ [diag (extract_reference_id refVal)] },
       Option.none) := by
  unfold rel_ref_check pySetContains
  simp [ht, hr, hh, hm]

theorem sizeOf_list_pyVal_pos (l : List PyVal) : 1 ≤ sizeOf l := by
  cases l <;> simp_arith

theorem csem_warnOnly_aux :
    ∀ (n : Nat) (elements : List PyVal), sizeOf elements ≤ n →
      ∀ (i : Nat) (base : String) (ids : List PyVal) (b : Buckets),
        WarnOnlyFrom b (check_submodel_elements elements i base ids b).1 := by
  intro n
  induction n with
  | zero =>
    intro elements h
    have := sizeOf_list_pyVal_pos elements
    omega
  | succ n ih =>
    intro elements h i base ids b
    cases elements with
    | nil =>
      rw [check_submodel_elements]
      exact warnOnly_refl _
    | cons elem rest =>
      have hsz : sizeOf (elem :: rest) = 1 + sizeOf elem + sizeOf rest := by simp
      have hrest : sizeOf rest ≤ n := by
        have := sizeOf_pyVal_pos elem
        omega
      rw [check_submodel_elements]
      split
      · exact warnOnly_refl _
      · rename_i mt hmt
        split
        · rename_i b1 e hd
          have hfst := congrArg Prod.fst hd
          dsimp only at hfst
          rw [← hfst]
          exact check_elem_direct_warnOnly _ _ _ _ _
        · rename_i b1 hd
          have hb1 : WarnOnlyFrom b b1 := by
            have hfst := congrArg Prod.fst hd
            dsimp only at hfst
            rw [← hfst]
            exact check_elem_direct_warnOnly _ _ _ _ _
          split
          · split
            · exact hb1
            · rename_i items hv
              split
              · rename_i b2 e2 hcn
                have hfst2 := congrArg Prod.fst hcn
                dsimp only at hfst2
                rw [← hfst2]
                refine warnOnly_trans hb1 (ih items ?_ 0 _ ids b1)
                have : sizeOf items < sizeOf (elem :: rest) := pyGetD_value_sizeOf hv
                omega
              · rename_i b2 hcn
                have hb2 : WarnOnlyFrom b b2 := by
                  have hfst2 := congrArg Prod.fst hcn
                  dsimp only at hfst2
                  rw [← hfst2]
                  refine warnOnly_trans hb1 (ih items ?_ 0 _ ids b1)
                  have : sizeOf items < sizeOf (elem :: rest) := pyGetD_value_sizeOf hv
                  omega
                exact warnOnly_trans hb2 (ih rest hrest (i + 1) base ids b2)
            · exact warnOnly_trans hb1 (ih rest hrest (i + 1) base ids b1)
          · exact warnOnly_trans hb1 (ih rest hrest (i + 1) base ids b1)

/-- The recursive element walker can only append warnings: the error and
info buckets pass through unchanged, whatever the outcome. -/
theorem csem_warnOnly (elements : List PyVal) (i : Nat) (base : String)
    (ids : List PyVal) (b : Buckets) :
    WarnOnlyFrom b (check_submodel_elements elements i base ids b).1 :=
  csem_warnOnly_aux (sizeOf elements) elements (Nat.le_refl _) i base ids b

theorem extendsFrom_refl (b : Buckets) : ExtendsFrom b b :=
  ⟨⟨[], by simp⟩, ⟨[], by simp⟩, ⟨[], by simp⟩⟩

theorem submodels_loop_warnOnly :
    ∀ (sms : List PyVal) (i : Nat) (ids : List PyVal) (b : Buckets),
      WarnOnlyFrom b (submodels_loop sms i ids b).1 := by
  intro sms
  induction sms with
  | nil => intro i ids b; exact warnOnly_refl _
  | cons sm rest ih =>
    intro i ids b
    rw [submodels_loop]
    split
    · exact warnOnly_refl _
    · split
      · exact warnOnly_refl _
      · rename_i elsVal hels els hiter
        split
        · rename_i b1 e hcn
          have hfst := congrArg Prod.fst hcn
          dsimp only at hfst
          rw [← hfst]
          exact csem_warnOnly _ _ _ _ _
        · rename_i b1 hcn
          have hb1 : WarnOnlyFrom b b1 := by
            have hfst := congrArg Prod.fst hcn
            dsimp only at hfst
            rw [← hfst]
            exact csem_warnOnly _ _ _ _ _
          exact warnOnly_trans hb1 (ih (i + 1) ids b1)

theorem check_references_in_submodels_warnOnly (env : PyVal) (ids : List PyVal)
    (b : Buckets) : WarnOnlyFrom b (check_references_in_submodels env ids b).1 := by
  unfold check_references_in_submodels
  repeat' split
  all_goals first
    | exact warnOnly_refl _
    | exact submodels_loop_warnOnly _ _ _ _

theorem semantics_loop_warnOnly :
    ∀ (sms : List PyVal) (i : Nat) (b : Buckets),
      WarnOnlyFrom b (semantics_loop sms i b).1 := by
  intro sms
  induction sms with
  | nil => intro i b; exact warnOnly_refl _
  | cons sm rest ih =>
    intro i b
    rw [semantics_loop]
    split
    · exact warnOnly_refl _
    · exact ih (i + 1) b
    · refine warnOnly_trans ?_ (ih (i + 1) _)
      exact ⟨rfl, ⟨_, rfl⟩, rfl⟩

theorem validate_semantics_warnOnly (env : PyVal) (b : Buckets) :
    WarnOnlyFrom b (validate_semantics env b).1 := by
  unfold validate_semantics
  repeat' split
  all_goals first
    | exact warnOnly_refl _
    | exact semantics_loop_warnOnly _ _ _

theorem aas_derived_from_check_warnOnly (aas : PyVal) (i : Nat) (ids : List PyVal)
    (b : Buckets) : WarnOnlyFrom b (aas_derived_from_check aas i ids b).1 := by
  unfold aas_derived_from_check
  repeat' split
  all_goals try exact warnOnly_refl _
  all_goals dsimp only
  all_goals repeat' split
  all_goals first
    | exact warnOnly_refl _
    | exact ⟨rfl, ⟨_, rfl⟩, rfl⟩

theorem aas_submodel_refs_loop_errOnly :
    ∀ (subs : List PyVal) (j i : Nat) (ids : List PyVal) (b : Buckets),
      ErrOnlyFrom b (aas_submodel_refs_loop subs j i ids b).1 := by
  intro subs
  induction subs with
  | nil => intro j i ids b; exact errOnly_refl _
  | cons sm_ref rest ih =>
    intro j i ids b
    rw [aas_submodel_refs_loop]
    try dsimp only
    split
    · split
      · exact errOnly_refl _
      · split
        · exact ih (j + 1) i ids b
        · exact errOnly_trans
            (show ErrOnlyFrom b
              { b with errors :=
                  b.errors ++ [broken_ref_diag i j (extract_reference_id sm_ref)] } from
              ⟨⟨_, rfl⟩, rfl, rfl⟩)
            (ih (j + 1) i ids _)
    · exact ih (j + 1) i ids b

theorem aas_shells_loop_extends :
    ∀ (shells : List PyVal) (k : Nat) (ids : List PyVal) (b : Buckets),
      ExtendsFrom b (aas_shells_loop shells k ids b).1 := by
  intro shells
  induction shells with
  | nil => intro k ids b; exact extendsFrom_refl _
  | cons aas rest ih =>
    intro k ids b
    rw [aas_shells_loop]
    split
    · exact extendsFrom_refl _
    · split
      · exact extendsFrom_refl _
      · rename_i subsVal hget subs hiter
        split
        · rename_i b1 e hr
          have hfst := congrArg Prod.fst hr
          dsimp only at hfst
          rw [← hfst]
          exact extendsFrom_of_errOnly (aas_submodel_refs_loop_errOnly _ _ _ _ _)
        · rename_i b1 hr
          have hb1 : ExtendsFrom b b1 := by
            have hfst := congrArg Prod.fst hr
            dsimp only at hfst
            rw [← hfst]
            exact extendsFrom_of_errOnly (aas_submodel_refs_loop_errOnly _ _ _ _ _)
          split
          · rename_i b2 e hdv
            have hfst := congrArg Prod.fst hdv
            dsimp only at hfst
            rw [← hfst]
            exact extendsFrom_trans hb1
              (extendsFrom_of_warnOnly (aas_derived_from_check_warnOnly _ _ _ _))
          · rename_i b2 hdv
            have hb2 : ExtendsFrom b b2 := by
              have hfst := congrArg Prod.fst hdv
              dsimp only at hfst
              rw [← hfst]
              exact extendsFrom_trans hb1
                (extendsFrom_of_warnOnly (aas_derived_from_check_warnOnly _ _ _ _))
            exact extendsFrom_trans hb2 (ih (k + 1) ids b2)

theorem aas_refs_loop_mem :
    ∀ (subs : List PyVal) (m i : Nat) (ids : List PyVal) (b b' : Buckets),
      aas_submodel_refs_loop subs m i ids b = (b', Option.none) →
      ∀ (n : Nat) (ref : PyVal), subs.get? n = some ref →
        pyTruthy (extract_reference_id ref) = true →
        pyHashable (extract_reference_id ref) = true →
        pyMem (extract_reference_id ref) ids = false →
        broken_ref_diag i (m + n) (extract_reference_id ref) ∈ b'.errors := by
  intro subs
  induction subs with
  | nil =>
    intro m i ids b b' h n ref hn
    simp at hn
  | cons sm_ref rest ih =>
    intro m i ids b b' h n ref hn ht hh hm
    cases n with
    | zero =>
      have href : sm_ref = ref := by
        rw [List.get?_cons_zero] at hn
        exact Option.some.inj hn
      subst href
      rw [aas_submodel_refs_loop] at h
      have hsc : pySetContains (extract_reference_id sm_ref) ids = .ok false := by
        unfold pySetContains
        simp [hh, hm]
      simp only [ht, if_true, hsc, Bool.false_eq_true, if_false] at h
      have hext := aas_submodel_refs_loop_errOnly rest (m + 1) i ids
        { b with errors := b.errors ++ [broken_ref_diag i m (extract_reference_id sm_ref)] }
      have hfst := congrArg Prod.fst h
      dsimp only at hfst
      rw [hfst] at hext
      simp only [Nat.add_zero]
      refine mem_errors_of_extendsFrom (extendsFrom_of_errOnly hext) ?_
      simp
    | succ k =>
      rw [List.get?_cons_succ] at hn
      rw [aas_submodel_refs_loop] at h
      have hidx : m + 1 + k = m + (k + 1) := by omega
      split at h
      · split at h
        · simp at h
        · split at h
          · have := ih (m + 1) i ids b b' h k ref hn ht hh hm
            rwa [hidx] at this
          · have := ih (m + 1) i ids _ b' h k ref hn ht hh hm
            rwa [hidx] at this
      · have := ih (m + 1) i ids b b' h k ref hn ht hh hm
        rwa [hidx] at this

theorem aas_shells_loop_mem :
    ∀ (shells : List PyVal) (k : Nat) (ids : List PyVal) (b b' : Buckets),
      aas_shells_loop shells k ids b = (b', Option.none) →
      ∀ (n : Nat) (aas : PyVal), shells.get? n = some aas →
      ∀ (subsVal : PyVal) (subs : List PyVal),
        pyGetD aas "submodels" (.list []) = .ok subsVal →
        pyIterList subsVal = .ok subs →
      ∀ (j : Nat) (ref : PyVal), subs.get? j = some ref →
        pyTruthy (extract_reference_id ref) = true →
        pyHashable (extract_reference_id ref) = true →
        pyMem (extract_reference_id ref) ids = false →
        broken_ref_diag (k + n) j (extract_reference_id ref) ∈ b'.errors := by
  intro shells
  induction shells with
  | nil =>
    intro k ids b b' h n aas hn
    simp at hn
  | cons aas0 rest ih =>
    intro k ids b b' h n aas hn subsVal subs hget hiter j ref hj ht hh hm
    cases n with
    | zero =>
      have haas : aas0 = aas := by
        rw [List.get?_cons_zero] at hn
        exact Option.some.inj hn
      subst haas
      rw [aas_shells_loop] at h
      simp only [hget, hiter] at h
      split at h
      · simp at h
      · rename_i b1 hr
        split at h
        · simp at h
        · rename_i b2 hdv
          have hmem1 : broken_ref_diag k j (extract_reference_id ref) ∈ b1.errors := by
            have := aas_refs_loop_mem subs 0 k ids b b1 hr j ref hj ht hh hm
            simpa using this
          have h12 : WarnOnlyFrom b1 b2 := by
            have hfst := congrArg Prod.fst hdv
            dsimp only at hfst
            rw [← hfst]
            exact aas_derived_from_check_warnOnly _ _ _ _
          have h2e : ExtendsFrom b2 b' := by
            have hfst := congrArg Prod.fst h
            dsimp only at hfst
            rw [← hfst]
            exact aas_shells_loop_extends _ _ _ _
          simp only [Nat.add_zero]
          refine mem_errors_of_extendsFrom h2e ?_
          rw [h12.1]
          exact hmem1
    | succ m =>
      rw [List.get?_cons_succ] at hn
      rw [aas_shells_loop] at h
      have hidx : k + 1 + m = k + (m + 1) := by omega
      split at h
      · simp at h
      · split at h
        · simp at h
        · split at h
          · simp at h
          · split at h
            · simp at h
            · have := ih (k + 1) ids _ b' h m aas hn subsVal subs hget hiter
                j ref hj ht hh hm
              rwa [hidx] at this

theorem check_references_in_aas_mem (env : PyVal) (ids : List PyVal) (b b' : Buckets)
    (h : check_references_in_aas env ids b = (b', Option.none))
    (shellsVal : PyVal) (shells : List PyVal)
    (hsv : pyGetD env "assetAdministrationShells" (.list []) = .ok shellsVal)
    (hsi : pyIterList shellsVal = .ok shells)
    (n : Nat) (aas : PyVal) (hn : shells.get? n = some aas)
    (subsVal : PyVal) (subs : List PyVal)
    (hget : pyGetD aas "submodels" (.list []) = .ok subsVal)
    (hiter : pyIterList subsVal = .ok subs)
    (j : Nat) (ref : PyVal) (hj : subs.get? j = some ref)
    (ht : pyTruthy (extract_reference_id ref) = true)
    (hh : pyHashable (extract_reference_id ref) = true)
    (hm : pyMem (extract_reference_id ref) ids = false) :
    broken_ref_diag n j (extract_reference_id ref) ∈ b'.errors := by
  unfold check_references_in_aas at h
  simp only [hsv, hsi] at h
  have := aas_shells_loop_mem shells 0 ids b b' h n aas hn subsVal subs hget hiter
    j ref hj ht hh hm
  simpa using this

theorem validate_references_mem (env : PyVal) (b b' : Buckets)
    (ids : List PyVal) (hids : collect_valid_ids env = .ok ids)
    (h : validate_references env b = (b', Option.none))
    (shellsVal : PyVal) (shells : List PyVal)
    (hsv : pyGetD env "assetAdministrationShells" (.list []) = .ok shellsVal)
    (hsi : pyIterList shellsVal = .ok shells)
    (n : Nat) (aas : PyVal) (hn : shells.get? n = some aas)
    (subsVal : PyVal) (subs : List PyVal)
    (hget : pyGetD aas "submodels" (.list []) = .ok subsVal)
    (hiter : pyIterList subsVal = .ok subs)
    (j : Nat) (ref : PyVal) (hj : subs.get? j = some ref)
    (ht : pyTruthy (extract_reference_id ref) = true)
    (hh : pyHashable (extract_reference_id ref) = true)
    (hm : pyMem (extract_reference_id ref) ids = false) :
    broken_ref_diag n j (extract_reference_id ref) ∈ b'.errors := by
  unfold validate_references at h
  simp only [hids] at h
  split at h
  · simp at h
  · rename_i b1 hA
    have hmem := check_references_in_aas_mem env ids b b1 hA shellsVal shells hsv hsi
      n aas hn subsVal subs hget hiter j ref hj ht hh hm
    have hwo : WarnOnlyFrom b1 b' := by
      have hfst := congrArg Prod.fst h
      dsimp only at hfst
      rw [← hfst]
      exact check_references_in_submodels_warnOnly _ _ _
    rw [hwo.1]
    exact hmem

/-- C4 (amended): whenever the pipeline stages up to the reference walker
complete without an exception, every shell at position i whose submodels
entry j yields a truthy extracted (hashable) target id that is not a
member of the identifier index contributes a `references.broken` error
diagnostic at `/assetAdministrationShells/i/submodels/j` to the report.
The Python guard `if ref_id and ref_id not in valid_ids` skips falsy
extracted ids (such as the empty string), hence the truthiness condition. -/
theorem C4_broken_submodel_reference_error
    (latest : PyVal) (check : PyVal → PyVal → Except String CheckResult)
    (env : PyVal) (options : Option PyVal) (elapsed : Float)
    (version : PyVal) (result : CheckResult) (b1 b2 b3 : Buckets)
    (ids : List PyVal) (shellsVal : PyVal) (shells : List PyVal)
    (i : Nat) (aas : PyVal) (subsVal : PyVal) (subs : List PyVal)
    (j : Nat) (ref : PyVal)
    (hver : pyGetD (options_or_empty options) "version" latest = .ok version)
    (hchk : check env version = .ok result)
    (hparse : parse_aas_test_result result emptyBuckets = (b1, Option.none))
    (hstruct : validate_structure env b1 = (b2, Option.none))
    (hids : collect_valid_ids env = .ok ids)
    (hrefs : validate_references env b2 = (b3, Option.none))
    (hsv : pyGetD env "assetAdministrationShells" (.list []) = .ok shellsVal)
    (hsi : pyIterList shellsVal = .ok shells)
    (hn : shells.get? i = some aas)
    (hget : pyGetD aas "submodels" (.list []) = .ok subsVal)
    (hiter : pyIterList subsVal = .ok subs)
    (hj : subs.get? j = some ref)
    (ht : pyTruthy (extract_reference_id ref) = true)
    (hh : pyHashable (extract_reference_id ref) = true)
    (hm : pyMem (extract_reference_id ref) ids = false) :
    broken_ref_diag i j (extract_reference_id ref) ∈
      (validate latest check env options elapsed).errors := by
  have hmem3 := validate_references_mem env b2 b3 ids hids hrefs shellsVal shells
    hsv hsi i aas hn subsVal subs hget hiter j ref hj ht hh hm
  unfold validate validatePipeline
  simp only [hver, hchk, hparse, hstruct, hrefs]
  cases hsem : validate_semantics env b3 with
  | mk b4 e4 =>
    have hwo : WarnOnlyFrom b3 b4 := by
      have hfst := congrArg Prod.fst hsem
      dsimp only at hfst
      rw [← hfst]
      exact validate_semantics_warnOnly _ _
    dsimp only
    cases e4 with
    | none =>
      refine List.mem_append_left _ ?_
      rw [hwo.1]
      exact hmem3
    | some e =>
      refine List.mem_append_left _ ?_
      rw [hwo.1]
      exact hmem3

def c4_check : PyVal → PyVal → Except String CheckResult :=
  fun _ _ => .ok ⟨.ok true, Option.none, Option.none, .ok ""⟩

def c4_result : CheckResult := ⟨.ok true, Option.none, Option.none, .ok ""⟩

def c4_ref : PyVal := .dict [("keys", .list [.dict [("value", .str "urn:missing")]])]

def c4_shell : PyVal := .dict [("submodels", .list [c4_ref])]

def c4_env : PyVal :=
  .dict [("assetAdministrationShells", .list [c4_shell]), ("submodels", .list [])]

def c4_b1 : Buckets := ⟨[], [], [compliance_diag]⟩

def c4_b3 : Buckets := ⟨[broken_ref_diag 0 0 (.str "urn:missing")], [], [compliance_diag]⟩

/-- Witness for amended C4 on a concrete document with one dangling
shell-to-submodel reference. -/
theorem C4_broken_submodel_reference_error_witness :
    broken_ref_diag 0 0 (extract_reference_id c4_ref) ∈
      (validate (.str "3.0") c4_check c4_env Option.none 0).errors :=
  C4_broken_submodel_reference_error (.str "3.0") c4_check c4_env Option.none 0
    (.str "3.0") c4_result c4_b1 c4_b1 c4_b3 [] (.list [c4_shell]) [c4_shell]
    0 c4_shell (.list [c4_ref]) [c4_ref] 0 c4_ref
    rfl rfl rfl rfl rfl rfl rfl rfl rfl rfl rfl rfl rfl rfl rfl

def c4c_ref : PyVal := .dict [("keys", .list [.dict [("value", .str "")]])]

def c4c_env : PyVal :=
  .dict [("assetAdministrationShells", .list [.dict [("submodels", .list [c4c_ref])]]),
         ("submodels", .list [])]

/-- C4 counterexample: a shell submodels entry whose extracted target id
is the empty string.  The id is non-absent and not a member of the (empty)
identifier index, so the claim requires a `references.broken` error, but
the Python truthiness guard `if ref_id and ...` skips it and the report's
error bucket stays empty. -/
theorem C4_counterexample_empty_string_id :
    extract_reference_id c4c_ref = .str "" ∧
    PyVal.str "" ≠ PyVal.none ∧
    collect_valid_ids c4c_env = .ok [] ∧
    pyMem (.str "") [] = false ∧
    (validate (.str "3.0") c4_check c4c_env Option.none 0).errors = [] := by
  refine ⟨rfl, by decide, rfl, rfl, rfl⟩

theorem csem_mem_warning :
    ∀ (elements : List PyVal) (i : Nat) (base : String) (ids : List PyVal)
      (b b' : Buckets),
      check_submodel_elements elements i base ids b = (b', Option.none) →
      ∀ (n : Nat) (elem : PyVal), elements.get? n = some elem →
      ∀ (mt : PyVal), pyGetD elem "modelType" PyVal.none = .ok mt →
      ∀ (d : ValidationError),
        (∀ (bx b2 : Buckets),
          check_elem_direct mt elem (base ++ "/" ++ toString (i + n)) ids bx =
            (b2, Option.none) → d ∈ b2.warnings) →
        d ∈ b'.warnings := by
  intro elements
  induction elements with
  | nil =>
    intro i base ids b b' h n elem hn
    simp at hn
  | cons elem0 rest ih =>
    intro i base ids b b' h n elem hn mt hmt d hd
    cases n with
    | zero =>
      have he : elem0 = elem := by
        rw [List.get?_cons_zero] at hn
        exact Option.some.inj hn
      subst he
      simp only [Nat.add_zero] at hd
      rw [check_submodel_elements] at h
      simp only [hmt] at h
      split at h
      · simp at h
      · rename_i b1 hdir
        have hd1 : d ∈ b1.warnings := hd b b1 hdir
        split at h
        · split at h
          · simp at h
          · rename_i items hv
            split at h
            · simp at h
            · rename_i b2 hcn
              have h12 : WarnOnlyFrom b1 b2 := by
                have hfst := congrArg Prod.fst hcn
                dsimp only at hfst
                rw [← hfst]
                exact csem_warnOnly _ _ _ _ _
              have h2e : WarnOnlyFrom b2 b' := by
                have hfst := congrArg Prod.fst h
                dsimp only at hfst
                rw [← hfst]
                exact csem_warnOnly _ _ _ _ _
              exact mem_warnings_of_extendsFrom (extendsFrom_of_warnOnly h2e)
                (mem_warnings_of_extendsFrom (extendsFrom_of_warnOnly h12) hd1)
          · have h1e : WarnOnlyFrom b1 b' := by
              have hfst := congrArg Prod.fst h
              dsimp only at hfst
              rw [← hfst]
              exact csem_warnOnly _ _ _ _ _
            exact mem_warnings_of_extendsFrom (extendsFrom_of_warnOnly h1e) hd1
        · have h1e : WarnOnlyFrom b1 b' := by
            have hfst := congrArg Prod.fst h
            dsimp only at hfst
            rw [← hfst]
            exact csem_warnOnly _ _ _ _ _
          exact mem_warnings_of_extendsFrom (extendsFrom_of_warnOnly h1e) hd1
    | succ m =>
      rw [List.get?_cons_succ] at hn
      have hidx : i + 1 + m = i + (m + 1) := by omega
      have hd' : ∀ (bx b2 : Buckets),
          check_elem_direct mt elem (base ++ "/" ++ toString (i + 1 + m)) ids bx =
            (b2, Option.none) → d ∈ b2.warnings := by
        rw [hidx]
        exact hd
      rw [check_submodel_elements] at h
      split at h
      · simp at h
      · rename_i mt0 hmt0
        split at h
        · simp at h
        · rename_i b1 hdir0
          split at h
          · split at h
            · simp at h
            · rename_i items hv
              split at h
              · simp at h
              · rename_i b2 hcn
                exact ih (i + 1) base ids b2 b' h m elem hn mt hmt d hd'
            · exact ih (i + 1) base ids b1 b' h m elem hn mt hmt d hd'
          · exact ih (i + 1) base ids b1 b' h m elem hn mt hmt d hd'

theorem check_elem_direct_refelem (elem v : PyVal) (p : String) (ids : List PyVal)
    (hvv : pyGetD elem "value" PyVal.none = .ok v)
    (htv : pyTruthy v = true)
    (ht : pyTruthy (extract_reference_id v) = true)
    (hh : pyHashable (extract_reference_id v) = true)
    (hm : pyMem (extract_reference_id v) ids = false) :
    ∀ (bx b2 : Buckets),
      check_elem_direct (PyVal.str "ReferenceElement") elem p ids bx =
        (b2, Option.none) →
      ref_elem_diag p (extract_reference_id v) ∈ b2.warnings := by
  intro bx b2 h
  unfold check_elem_direct at h
  simp only [beq_self_eq_true, if_true, hvv] at h
  rw [rel_ref_check_trigger v _ ids bx htv ht hh hm] at h
  have hfst := congrArg Prod.fst h
  dsimp only at hfst
  rw [← hfst]
  simp

theorem check_elem_direct_relfirst (elem first second : PyVal) (p : String)
    (ids : List PyVal)
    (hf : pyGetD elem "first" PyVal.none = .ok first)
    (hs : pyGetD elem "second" PyVal.none = .ok second)
    (htv : pyTruthy first = true)
    (ht : pyTruthy (extract_reference_id first) = true)
    (hh : pyHashable (extract_reference_id first) = true)
    (hm : pyMem (extract_reference_id first) ids = false) :
    ∀ (bx b2 : Buckets),
      check_elem_direct (PyVal.str "RelationshipElement") elem p ids bx =
        (b2, Option.none) →
      rel_first_diag p (extract_reference_id first) ∈ b2.warnings := by
  intro bx b2 h
  unfold check_elem_direct at h
  have hb1 : (PyVal.str "RelationshipElement" == PyVal.str "ReferenceElement") = false := by
    decide
  simp only [hb1, Bool.false_eq_true, if_false, beq_self_eq_true, if_true, hf, hs] at h
  rw [rel_ref_check_trigger first _ ids bx htv ht hh hm] at h
  have hwo : WarnOnlyFrom
      { bx with warnings := bx.warnings ++ [rel_first_diag p (extract_reference_id first)] }
      b2 := by
    have hfst := congrArg Prod.fst h
    dsimp only at hfst
    rw [← hfst]
    exact rel_ref_check_warnOnly _ _ _ _
  refine mem_warnings_of_extendsFrom (extendsFrom_of_warnOnly hwo) ?_
  simp

theorem check_elem_direct_relsecond (elem first second : PyVal) (p : String)
    (ids : List PyVal)
    (hf : pyGetD elem "first" PyVal.none = .ok first)
    (hs : pyGetD elem "second" PyVal.none = .ok second)
    (htv : pyTruthy second = true)
    (ht : pyTruthy (extract_reference_id second) = true)
    (hh : pyHashable (extract_reference_id second) = true)
    (hm : pyMem (extract_reference_id second) ids = false) :
    ∀ (bx b2 : Buckets),
      check_elem_direct (PyVal.str "RelationshipElement") elem p ids bx =
        (b2, Option.none) →
      rel_second_diag p (extract_reference_id second) ∈ b2.warnings := by
  intro bx b2 h
  unfold check_elem_direct at h
  have hb1 : (PyVal.str "RelationshipElement" == PyVal.str "ReferenceElement") = false := by
    decide
  simp only [hb1, Bool.false_eq_true, if_false, beq_self_eq_true, if_true, hf, hs] at h
  split at h
  · simp at h
  · rename_i b1 hr1
    rw [rel_ref_check_trigger second _ ids b1 htv ht hh hm] at h
    have hfst := congrArg Prod.fst h
    dsimp only at hfst
    rw [← hfst]
    simp

/-- C5 (amended): the recursive element walker never touches the error
bucket (at any nesting depth, since the statement quantifies over every
call), and neither do the submodel walker around it nor the shell
`derivedFrom` check — the shell-to-submodel linkage is the only
cross-reference check that appends errors.  A ReferenceElement node, or
either leg of a RelationshipElement node, whose truthy (hashable)
extracted target id is not a member of the identifier index contributes a
`references.unknown` warning at its element path whenever the walk
completes without an exception.  The Python guard `if ref_id and ...`
skips falsy extracted ids (such as the empty string), hence the
truthiness condition. -/
theorem C5_element_references_warn_only :
    (∀ (elements : List PyVal) (i : Nat) (base : String) (ids : List PyVal)
        (b : Buckets),
      (check_submodel_elements elements i base ids b).1.errors = b.errors) ∧
    (∀ (env : PyVal) (ids : List PyVal) (b : Buckets),
      (check_references_in_submodels env ids b).1.errors = b.errors) ∧
    (∀ (aas : PyVal) (i : Nat) (ids : List PyVal) (b : Buckets),
      (aas_derived_from_check aas i ids b).1.errors = b.errors) ∧
    (∀ (elements : List PyVal) (i : Nat) (base : String) (ids : List PyVal)
        (b b' : Buckets),
      check_submodel_elements elements i base ids b = (b', Option.none) →
      ∀ (n : Nat) (elem : PyVal), elements.get? n = some elem →
      ∀ (v : PyVal),
        pyGetD elem "modelType" PyVal.none = .ok (.str "ReferenceElement") →
        pyGetD elem "value" PyVal.none = .ok v →
        pyTruthy v = true →
        pyTruthy (extract_reference_id v) = true →
        pyHashable (extract_reference_id v) = true →
        pyMem (extract_reference_id v) ids = false →
        ref_elem_diag (base ++ "/" ++ toString (i + n)) (extract_reference_id v) ∈
          b'.warnings) ∧
    (∀ (elements : List PyVal) (i : Nat) (base : String) (ids : List PyVal)
        (b b' : Buckets),
      check_submodel_elements elements i base ids b = (b', Option.none) →
      ∀ (n : Nat) (elem : PyVal), elements.get? n = some elem →
      ∀ (first second : PyVal),
        pyGetD elem "modelType" PyVal.none = .ok (.str "RelationshipElement") →
        pyGetD elem "first" PyVal.none = .ok first →
        pyGetD elem "second" PyVal.none = .ok second →
        pyTruthy first = true →
        pyTruthy (extract_reference_id first) = true →
        pyHashable (extract_reference_id first) = true →
        pyMem (extract_reference_id first) ids = false →
        rel_first_diag (base ++ "/" ++ toString (i + n)) (extract_reference_id first) ∈
          b'.warnings) ∧
    (∀ (elements : List PyVal) (i : Nat) (base : String) (ids : List PyVal)
        (b b' : Buckets),
      check_submodel_elements elements i base ids b = (b', Option.none) →
      ∀ (n : Nat) (elem : PyVal), elements.get? n = some elem →
      ∀ (first second : PyVal),
        pyGetD elem "modelType" PyVal.none = .ok (.str "RelationshipElement") →
        pyGetD elem "first" PyVal.none = .ok first →
        pyGetD elem "second" PyVal.none = .ok second →
        pyTruthy second = true →
        pyTruthy (extract_reference_id second) = true →
        pyHashable (extract_reference_id second) = true →
        pyMem (extract_reference_id second) ids = false →
        rel_second_diag (base ++ "/" ++ toString (i + n)) (extract_reference_id second) ∈
          b'.warnings) := by
  refine ⟨?_, ?_, ?_, ?_, ?_, ?_⟩
  · intro elements i base ids b
    exact (csem_warnOnly elements i base ids b).1
  · intro env ids b
    exact (check_references_in_submodels_warnOnly env ids b).1
  · intro aas i ids b
    exact (aas_derived_from_check_warnOnly aas i ids b).1
  · intro elements i base ids b b' h n elem hn v hmt hvv htv ht hh hm
    exact csem_mem_warning elements i base ids b b' h n elem hn _ hmt _
      (check_elem_direct_refelem elem v _ ids hvv htv ht hh hm)
  · intro elements i base ids b b' h n elem hn first second hmt hf hs htv ht hh hm
    exact csem_mem_warning elements i base ids b b' h n elem hn _ hmt _
      (check_elem_direct_relfirst elem first second _ ids hf hs htv ht hh hm)
  · intro elements i base ids b b' h n elem hn first second hmt hf hs htv ht hh hm
    exact csem_mem_warning elements i base ids b b' h n elem hn _ hmt _
      (check_elem_direct_relsecond elem first second _ ids hf hs htv ht hh hm)

def c5_refval : PyVal := .dict [("keys", .list [.dict [("value", .str "urn:unknown")]])]

def c5_elem : PyVal :=
  .dict [("modelType", .str "ReferenceElement"), ("value", c5_refval)]

def c5_out : Buckets :=
  ⟨[], [ref_elem_diag "/submodels/0/submodelElements/0" (.str "urn:unknown")], []⟩

/-- Witness for amended C5 on a concrete ReferenceElement with an unknown
target. -/
theorem C5_element_references_warn_only_witness :
    ref_elem_diag ("/submodels/0/submodelElements" ++ "/" ++ toString (0 + 0))
        (extract_reference_id c5_refval) ∈ c5_out.warnings ∧
      (check_submodel_elements [c5_elem] 0 "/submodels/0/submodelElements" []
        emptyBuckets).1.errors = emptyBuckets.errors := by
  constructor
  · have hcomp : check_submodel_elements [c5_elem] 0 "/submodels/0/submodelElements"
        [] emptyBuckets = (c5_out, Option.none) := by
      simp only [check_submodel_elements]
      decide
    exact C5_element_references_warn_only.2.2.2.1 [c5_elem] 0
      "/submodels/0/submodelElements" [] emptyBuckets c5_out hcomp 0 c5_elem rfl
      c5_refval rfl rfl rfl rfl rfl rfl
  · exact C5_element_references_warn_only.1 [c5_elem] 0
      "/submodels/0/submodelElements" [] emptyBuckets

def c5c_elem : PyVal :=
  .dict [("modelType", .str "ReferenceElement"),
         ("value", .dict [("keys", .list [.dict [("value", .str "")]])])]

/-- C5 counterexample: a ReferenceElement whose extracted target id is the
empty string.  The target is non-absent and absent from the (empty)
identifier index, so the claim requires a `references.unknown` warning,
but the Python truthiness guard skips it and the walker emits nothing. -/
theorem C5_counterexample_empty_string_target :
    extract_reference_id (.dict [("keys", .list [.dict [("value", .str "")]])]) =
        .str "" ∧
      PyVal.str "" ≠ PyVal.none ∧
      pyMem (.str "") [] = false ∧
      check_submodel_elements [c5c_elem] 0 "/submodels/0/submodelElements" []
        emptyBuckets = (emptyBuckets, Option.none) := by
  refine ⟨rfl, by decide, rfl, ?_⟩
  simp only [check_submodel_elements]
  decide

end AasEditor
